import Mathlib

/-!
Verification development for the action-execution engine of the stagehand
repository (`src/lib/handlers/actHandler.ts`).

The TypeScript source is shallowly embedded:

* Strings are modelled by `String` (act orchestration) and `List Char`
  (fingerprint normalization), with JavaScript's `trim` /
  `replace(/\s+/g, " ")` translated into explicit character-list recursions.
* DOM elements are modelled as a tree datatype; the browser's `outerHTML`
  serialization (external to the repository) is modelled as a plain
  serializer without entity escaping.
* Effectful collaborators (decision oracle, verification oracle, in-page
  document chunker, Playwright locators, cache store) are fields of an
  environment record `Env`; fallible calls return `Except String`.
* The mutually recursive `act` orchestrator is defunctionalized into a
  step function `actStep : Env → ActParams → StepOutcome × List Event`,
  every recursive `return this.act({...})` in the source becoming a
  `StepOutcome.recurse` carrying the new parameters, and `actIter`
  iterates steps with explicit fuel.  Side effects (oracle invocations,
  Playwright commands, cache reads/writes/deletes, recorder appends)
  are collected in an event list.
-/

/-! ## Character-list utilities (JavaScript string primitives) -/

/-- One step of `String.prototype.replace(/\s+/g, " ")`: the boolean state
records whether the previous character was part of a whitespace run. -/
def collapseWsAux : Bool → List Char → List Char
  | _, [] => []
  | prevWs, c :: cs =>
    if c.isWhitespace then
      if prevWs then collapseWsAux true cs
      else ' ' :: collapseWsAux true cs
    else c :: collapseWsAux false cs

/-- `s.replace(/\s+/g, " ")`: every maximal whitespace run becomes one space. -/
def collapseWs (s : List Char) : List Char := collapseWsAux false s

/-- `String.prototype.trim()`: drop leading and trailing whitespace. -/
def trimWs (s : List Char) : List Char :=
  ((s.dropWhile Char.isWhitespace).reverse.dropWhile Char.isWhitespace).reverse

/-- `s.trim().replace(/\s+/g, " ")` — the normalization applied by
`_checkIfCachedStepIsValid_oneXpath` before comparing fingerprints. -/
def normalizeChars (s : List Char) : List Char := collapseWs (trimWs s)

/-- The same normalization on `String`. -/
def normalizeString (s : String) : String := ⟨normalizeChars s.data⟩

/-- Delete every whitespace character (used to state "the markup differs
only in whitespace"). -/
def deleteWs (s : List Char) : List Char := s.filter (fun c => !c.isWhitespace)

/-- The whitespace state after feeding `s` to `collapseWsAux` starting from
state `b`. -/
def wsState (b : Bool) : List Char → Bool
  | [] => b
  | c :: cs => wsState c.isWhitespace cs

theorem collapseWsAux_append (b : Bool) (xs ys : List Char) :
    collapseWsAux b (xs ++ ys) = collapseWsAux b xs ++ collapseWsAux (wsState b xs) ys := by
  induction xs generalizing b with
  | nil => simp [collapseWsAux, wsState]
  | cons c cs ih =>
    by_cases hc : c.isWhitespace <;> by_cases hb : b <;>
      simp [collapseWsAux, wsState, hc, hb, ih]

theorem collapseWsAux_cons_nonWs (b : Bool) (c : Char) (cs : List Char)
    (hc : ¬ c.isWhitespace) : collapseWsAux b (c :: cs) = c :: collapseWsAux false cs := by
  simp [collapseWsAux, hc]

theorem wsState_append (b : Bool) (xs ys : List Char) :
    wsState b (xs ++ ys) = wsState (wsState b xs) ys := by
  induction xs generalizing b with
  | nil => simp [wsState]
  | cons c cs ih => simp [wsState, ih]

theorem wsState_concat_nonWs (b : Bool) (xs : List Char) (c : Char)
    (hc : ¬ c.isWhitespace) : wsState b (xs ++ [c]) = false := by
  rw [wsState_append]
  simp [wsState, hc]

/-! ## DOM model and the structural fingerprint (`_getComponentString`) -/

/-- A DOM node: a text node or an element with a tag, an ordered attribute
list and child nodes. -/
inductive DomNode where
  | text (s : List Char)
  | elem (tag : List Char) (attrs : List (List Char × List Char)) (children : List DomNode)

/-- The element a locator resolves to (the receiver of `_getComponentString`). -/
structure ElementNode where
  tag : List Char
  attrs : List (List Char × List Char)
  children : List DomNode

/-- Serialization of an attribute list: ` name="value"` for each attribute,
in order.  Models the browser's `outerHTML` attribute rendering (entity
escaping omitted; the serializer itself is external to the repository). -/
def serializeAttrs : List (List Char × List Char) → List Char
  | [] => []
  | (n, v) :: rest => ' ' :: (n ++ '=' :: '"' :: (v ++ '"' :: serializeAttrs rest))

mutual

/-- `outerHTML` of a node (model of the browser serializer). -/
def serializeNode : DomNode → List Char
  | .text s => s
  | .elem tag attrs children =>
      '<' :: (tag ++ serializeAttrs attrs ++ '>' ::
        (serializeNodes children ++ '<' :: '/' :: tag)) ++ ['>']

/-- Concatenated serialization of a list of sibling nodes. -/
def serializeNodes : List DomNode → List Char
  | [] => []
  | n :: rest => serializeNode n ++ serializeNodes rest

end

/-- `outerHTML` of an element. -/
def serializeElem (e : ElementNode) : List Char :=
  serializeNode (.elem e.tag e.attrs e.children)

/-- The attribute allow-list of `_getComponentString`. -/
def attributesToKeep : List (List Char) :=
  [String.data "type", String.data "name", String.data "placeholder",
   String.data "aria-label", String.data "role", String.data "href",
   String.data "title", String.data "alt"]

/-- `Array.from(clone.attributes).forEach(... removeAttribute ...)`: the
clone loses every own attribute whose name is not in the allow-list.  Only
the element's own attributes are touched; descendants keep theirs. -/
def stripElementAttrs (e : ElementNode) : ElementNode :=
  { e with attrs := e.attrs.filter (fun a => attributesToKeep.contains a.1) }

/-- `_getComponentString`: clone, strip non-allow-listed own attributes,
serialize, then `trim().replace(/\s+/g, " ")`. -/
def getComponentString (e : ElementNode) : List Char :=
  collapseWs (trimWs (serializeElem (stripElementAttrs e)))

theorem serializeElem_eq (e : ElementNode) :
    serializeElem e =
      '<' :: (e.tag ++ serializeAttrs e.attrs ++ '>' ::
        (serializeNodes e.children ++ '<' :: '/' :: e.tag)) ++ ['>'] := by
  cases e
  simp [serializeElem, serializeNode]

theorem trimWs_sandwich (c d : Char) (xs : List Char)
    (hc : c.isWhitespace = false) (hd : d.isWhitespace = false) :
    trimWs (c :: xs ++ [d]) = c :: xs ++ [d] := by
  unfold trimWs
  rw [List.cons_append, List.dropWhile_cons_of_neg (by simp [hc])]
  rw [← List.cons_append, List.reverse_append, List.reverse_cons]
  simp only [List.reverse_nil, List.nil_append, List.singleton_append]
  rw [List.dropWhile_cons_of_neg (by simp [hd])]
  simp

theorem trimWs_serializeElem (e : ElementNode) :
    trimWs (serializeElem e) = serializeElem e := by
  rw [serializeElem_eq]
  exact trimWs_sandwich '<' '>' _ (by decide) (by decide)

/-- The fingerprint is the whitespace-collapsed serialization of the
attribute-stripped element (the `trim` is a no-op on element markup). -/
theorem getComponentString_eq_collapse (e : ElementNode) :
    getComponentString e = collapseWs (serializeElem (stripElementAttrs e)) := by
  unfold getComponentString
  rw [trimWs_serializeElem]

/-! ## Data model of the recursive orchestrator (`StagehandActHandler.act`) -/

/-- `useVision : boolean | "fallback"` — `on` is `true`, `off` is `false`. -/
inductive VisionMode where
  | off
  | on
  | fallback
deriving DecidableEq

/-- The slice of `LLMClient` the orchestrator reads. -/
structure LLMC where
  modelName : String
  hasVision : Bool
deriving DecidableEq

/-- `{method, args}` — a recorded Playwright command. -/
structure PlaywrightCommand where
  method : String
  args : List String
deriving DecidableEq

/-- A `CachedActionStep` as read back from the `ActionCache` store. -/
structure CachedStep where
  xpaths : List String
  componentString : String
  playwrightCommand : PlaywrightCommand
  newStepString : String
  completed : Bool
deriving DecidableEq

/-- The cache key object `{url, action, previousSelectors, requestId}`. -/
structure CacheKey where
  url : String
  action : String
  previousSelectors : List String
  requestId : String
deriving DecidableEq

/-- The record written by `addActionStep` / `addActionStep` on the recorder. -/
structure CacheRecord where
  action : String
  url : String
  previousSelectors : List String
  playwrightCommand : PlaywrightCommand
  componentString : String
  requestId : String
  xpaths : List String
  newStepString : String
  completed : Bool
deriving DecidableEq

/-- A non-null decision-oracle answer `{element, method, args, step, why, completed}`. -/
structure InferResponse where
  element : Nat
  method : String
  args : List String
  step : String
  why : String
  completed : Bool
deriving DecidableEq

/-- The result of `window.processDom(chunksSeen)`:
`{outputString, selectorMap, chunk, chunks}` (`chunksLen` is `chunks.length`). -/
structure DomChunkResult where
  outputString : String
  selectorMap : Nat → List String
  chunk : Nat
  chunksLen : Nat

/-- The `{success, message, action}` result of `act`. -/
structure ActResult where
  success : Bool
  message : String
  action : String
deriving DecidableEq

/-- The parameter object of one `act` invocation. -/
structure ActParams where
  action : String
  steps : String
  chunksSeen : List Nat
  llmClient : LLMC
  useVision : VisionMode
  verifierUseVision : Bool
  retries : Nat
  requestId : String
  variablesMap : List (String × String)
  previousSelectors : List String
  skipActionCacheForThisStep : Bool
  domSettleTimeoutMs : Option Nat
deriving DecidableEq

/-- Observable side effects of one `act` step, in program order. -/
inductive Event where
  | cacheLookup (key : CacheKey)
  | cacheRemove (key : CacheKey)
  | cacheAdd (record : CacheRecord)
  | purgeLLMCache (requestId : String)
  | purgeActionCache (requestId : String)
  | oracleCall (action steps : String)
  | verifyCall (action steps : String)
  | performCmd (method : String) (args : List String) (xpath : String)
  | recorderAdd (record : CacheRecord)
  | recordOutcome (action result : String)
  | processDomCall (seen : List Nat)
  | scrollToTop
deriving DecidableEq

/-- The external collaborators of one top-level `act` call: the page, the
stores and the oracles.  Fallible calls return `Except String`; an `.error`
models a thrown exception carrying its message.

* `settle` — `_waitForSettledDom` + `startDomDebug` at the top of `act`;
* `cacheGet` — `ActionCache.getActionStep` (store internals out of scope);
* `processDom` — the in-page `window.processDom(chunksSeen)`;
* `inference` — the decision oracle `act(...)` from `lib/inference`, keyed
  by goal text and accumulated steps; an `.error` also covers a throw from
  the adjacent screenshot / debug-cleanup calls of that region;
* `verifyOracle` — the effectful body of `_verifyActionCompletion` past its
  `completed` guard (DOM settle, evidence gathering, `verifyActCompletion`);
* `resolveOk` — whether `locator.waitFor({state: "attached"})` succeeds for
  an xpath within its timeout;
* `componentOf` — `_getComponentString` evaluated on the live element at an
  xpath;
* `performErr` — `_performPlaywrightMethod`: `some msg` models a thrown
  `PlaywrightCommandException` / `PlaywrightCommandMethodNotSupportedException`;
* `fillInVariables` — variable substitution from `lib/inference` (source not
  in scope; used as an uninterpreted function);
* `scrollReset` — `window.scrollToHeight(0)`. -/
structure Env where
  pageUrl : String
  enableCaching : Bool
  enableRecording : Bool
  settle : Except String Unit
  cacheGet : CacheKey → Option CachedStep
  processDom : List Nat → Except String DomChunkResult
  inference : String → String → Except String (Option InferResponse)
  verifyOracle : String → String → Except String Bool
  resolveOk : String → Bool
  componentOf : String → Except String String
  performErr : String → List String → String → Option String
  fillInVariables : String → List (String × String) → String
  scrollReset : Except String Unit

/-- The defunctionalized outcome of `_runCachedActionIfAvailable`: `noCache`
is a `null` return, `finished` a result returned to the caller, and
`continueAct` the tail call into `act` at line 949. -/
inductive CachedOutcome where
  | noCache
  | finished (r : ActResult)
  | continueAct (p : ActParams)
deriving DecidableEq

/-- The defunctionalized outcome of one `act` invocation: a result, or a
tail call with new parameters. -/
inductive StepOutcome where
  | done (r : ActResult)
  | recurse (p : ActParams)
deriving DecidableEq

/-! ## Embedded operations -/

/-- The cache key `{url: page.url(), action, previousSelectors, requestId}`. -/
def cacheKeyOf (env : Env) (p : ActParams) : CacheKey :=
  ⟨env.pageUrl, p.action, p.previousSelectors, p.requestId⟩

/-- `_verifyActionCompletion`: `false` without consulting anything when the
step does not claim completion; otherwise the verification oracle's verdict
(or its thrown exception). -/
def verifyActionCompletion (env : Env) (completed : Bool) (action steps : String) :
    Except String Bool × List Event :=
  if completed then
    match env.verifyOracle action steps with
    | .ok b => (.ok b, [.verifyCall action steps])
    | .error e => (.error e, [.verifyCall action steps])
  else (.ok false, [])

/-- `_checkIfCachedStepIsValid_oneXpath`: resolve the candidate, recompute
the live fingerprint, reject a missing element, an error (the `try/catch`
returns `false`), or an empty fingerprint on either side (the JS falsy
check), else compare after `trim` + whitespace collapse on both sides. -/
def checkIfCachedStepIsValid_oneXpath (env : Env) (xpath savedComponentString : String) : Bool :=
  if env.resolveOk xpath then
    match env.componentOf xpath with
    | .error _ => false
    | .ok currentComponent =>
      if currentComponent = "" ∨ savedComponentString = "" then false
      else decide (normalizeString currentComponent = normalizeString savedComponentString)
  else false

/-- The `for (const xpath of reversedXpaths)` loop of `_getValidCachedStepXpath`. -/
def getValidCachedStepXpathLoop (env : Env) (saved : String) : List String → Option String
  | [] => none
  | x :: rest =>
    if checkIfCachedStepIsValid_oneXpath env x saved then some x
    else getValidCachedStepXpathLoop env saved rest

/-- `_getValidCachedStepXpath`: try the stored selectors in reverse order,
return the first valid one, `null` if none. -/
def getValidCachedStepXpath (env : Env) (xpaths : List String) (saved : String) : Option String :=
  getValidCachedStepXpathLoop env saved xpaths.reverse

/-- The purge pair `llmProvider.cleanRequestCache` +
`actionCache.deleteCacheForRequestId`, guarded by `enableCaching`. -/
def purgeEvents (env : Env) (p : ActParams) : List Event :=
  if env.enableCaching then [.purgeLLMCache p.requestId, .purgeActionCache p.requestId] else []

/-- The outermost `catch` of `act`: purge the session's caches (when caching
is enabled) and return a failure result without retrying. -/
def actOuterCatch (env : Env) (p : ActParams) (msg : String) (evs : List Event) :
    StepOutcome × List Event :=
  (.done ⟨false, "Error performing action - C: " ++ msg, p.action⟩, evs ++ purgeEvents env p)

/-- `_runCachedActionIfAvailable`, defunctionalized.  Its `try/catch`
converts any exception after the lookup into `removeActionStep` + `null`. -/
def runCachedActionIfAvailable (env : Env) (p : ActParams) : CachedOutcome × List Event :=
  if env.enableCaching then
    let cacheObj := cacheKeyOf env p
    match env.cacheGet cacheObj with
    | none => (.noCache, [.cacheLookup cacheObj])
    | some cachedStep =>
      match getValidCachedStepXpath env cachedStep.xpaths cachedStep.componentString with
      | none =>
        (.noCache, [.cacheLookup cacheObj, .cacheRemove cacheObj])
      | some validXpath =>
        let filledArgs := cachedStep.playwrightCommand.args.map
          (fun arg => env.fillInVariables arg p.variablesMap)
        let performEv := Event.performCmd cachedStep.playwrightCommand.method filledArgs validXpath
        match env.performErr cachedStep.playwrightCommand.method filledArgs validXpath with
        | some _ =>
          (.noCache, [.cacheLookup cacheObj, performEv, .cacheRemove cacheObj])
        | none =>
          let recEvs := if env.enableRecording then
              [Event.recorderAdd ⟨p.action, env.pageUrl, [],
                ⟨cachedStep.playwrightCommand.method, filledArgs⟩,
                cachedStep.componentString, p.requestId, [validXpath],
                cachedStep.newStepString, cachedStep.completed⟩]
            else []
          let steps2 := p.steps ++ cachedStep.newStepString
          match env.processDom p.chunksSeen with
          | .error _ =>
            (.noCache, [.cacheLookup cacheObj, performEv] ++ recEvs ++
              [.processDomCall p.chunksSeen, .cacheRemove cacheObj])
          | .ok _ =>
            let baseEvs := [Event.cacheLookup cacheObj, performEv] ++ recEvs ++
              [Event.processDomCall p.chunksSeen]
            let fallThrough : ActParams :=
              { p with steps := steps2,
                       previousSelectors := p.previousSelectors ++ [cachedStep.xpaths.headD ""],
                       skipActionCacheForThisStep := false }
            if cachedStep.completed then
              match verifyActionCompletion env true p.action steps2 with
              | (.error _, vEvs) => (.noCache, baseEvs ++ vEvs ++ [.cacheRemove cacheObj])
              | (.ok true, vEvs) =>
                (.finished ⟨true, "action completed successfully using cached step", p.action⟩,
                 baseEvs ++ vEvs)
              | (.ok false, vEvs) => (.continueAct fallThrough, baseEvs ++ vEvs)
            else (.continueAct fallThrough, baseEvs)
  else (.noCache, [])

/-- The silent vision downgrade at the top of the fresh-inference region:
when the model lacks vision and either vision flag asks for it, both flags
drop to off. -/
def downgradeVision (hasVision : Bool) (uv : VisionMode) (vv : Bool) : VisionMode × Bool :=
  if hasVision = false ∧ (uv ≠ VisionMode.off ∨ vv = true) then (VisionMode.off, false)
  else (uv, vv)

/-- `s.split(sep)` on character lists. -/
def splitOnCharAux (sep : Char) (acc : List Char) : List Char → List (List Char)
  | [] => [acc.reverse]
  | c :: cs =>
    if c = sep then acc.reverse :: splitOnCharAux sep [] cs
    else splitOnCharAux sep (c :: acc) cs

/-- `s.split(sep)` on character lists. -/
def splitOnChar (sep : Char) (s : List Char) : List (List Char) := splitOnCharAux sep [] s

/-- `s.startsWith(pre)` on character lists. -/
def startsWithChars : List Char → List Char → Bool
  | _, [] => true
  | [], _ :: _ => false
  | c :: cs, q :: qs => c = q && startsWithChars cs qs

/-- The element-text lookup: find the `"{elementId}:"`-prefixed line of the
serialized chunk, take the text after the first colon, defaulting (also for
a falsy empty match) to `"Element not found"`. -/
def elementTextOf (outputString : String) (elementId : Nat) : String :=
  let pre := (toString elementId).data ++ [':']
  match (splitOnChar '\n' outputString.data).find? (fun l => startsWithChars l pre) with
  | none => "Element not found"
  | some line =>
    match (splitOnChar ':' line).get? 1 with
    | none => "Element not found"
    | some t => if t = [] then "Element not found" else ⟨t⟩

/-- `steps.endsWith("\n")`. -/
def endsWithNewline (s : String) : Bool := decide (s.data.getLast? = some '\n')

/-- The conditional separator `!steps.endsWith("\n") ? "\n" : ""`. -/
def stepPrefix (steps : String) : String := if endsWithNewline steps then "" else "\n"

/-- The narrative fragment built after a fresh command execution. -/
def mkNewStepString (steps : String) (resp : InferResponse) (elementText : String) : String :=
  stepPrefix steps ++ "## Step: " ++ resp.step ++ "\n" ++
  "  Element: " ++ elementText ++ "\n" ++
  "  Action: " ++ resp.method ++ "\n" ++
  "  Reasoning: " ++ resp.why ++ "\n"

/-- The inner `try` region of `act` (element resolution, fingerprint capture,
variable substitution, command execution, cache/recorder writes,
verification): `Except.error` is an exception escaping to the inner `catch`.
The page URL is constant in this model, so the URL-change narrative line is
never appended.  `uv`/`vv` are the possibly-downgraded local vision flags. -/
def actExecuteRegion (env : Env) (p : ActParams) (uv : VisionMode) (vv : Bool)
    (dom : DomChunkResult) (resp : InferResponse) : Except String StepOutcome × List Event :=
  let xpaths := dom.selectorMap resp.element
  let elementText := elementTextOf dom.outputString resp.element
  match xpaths.find? env.resolveOk with
  | none => (.error "None of the provided XPaths could be located.", [])
  | some foundXpath =>
    match env.componentOf foundXpath with
    | .error e => (.error e, [])
    | .ok componentString =>
      let filledArgs := resp.args.map (fun arg => env.fillInVariables arg p.variablesMap)
      let performEv := Event.performCmd resp.method filledArgs foundXpath
      match env.performErr resp.method filledArgs foundXpath with
      | some e => (.error e, [performEv])
      | none =>
        let newStepString := mkNewStepString p.steps resp elementText
        let steps2 := p.steps ++ newStepString
        let cacheRecord : CacheRecord :=
          ⟨p.action, env.pageUrl, p.previousSelectors, ⟨resp.method, resp.args⟩,
           componentString, p.requestId, xpaths, newStepString, resp.completed⟩
        let writeEvs := (if env.enableCaching then [Event.cacheAdd cacheRecord] else []) ++
          (if env.enableRecording then [Event.recorderAdd cacheRecord] else [])
        match verifyActionCompletion env resp.completed p.action steps2 with
        | (.error _, vEvs) =>
          (.ok (.done ⟨true, "Action completed successfully: " ++ steps2 ++ resp.step, p.action⟩),
           [performEv] ++ writeEvs ++ vEvs ++ [.recordOutcome p.action resp.step])
        | (.ok true, vEvs) =>
          (.ok (.done ⟨true, "Action completed successfully: " ++ steps2 ++ resp.step, p.action⟩),
           [performEv] ++ writeEvs ++ vEvs ++ [.recordOutcome p.action resp.step])
        | (.ok false, vEvs) =>
          (.ok (.recurse { p with
              steps := steps2,
              useVision := uv, verifierUseVision := vv,
              previousSelectors := p.previousSelectors ++ [foundXpath],
              skipActionCacheForThisStep := false,
              retries := 0 }),
           [performEv] ++ writeEvs ++ vEvs)

/-- The fresh-inference region of `act` (after the cache block): vision
downgrade, `processDom`, decision oracle, the null-decision branches, the
inner `try`/`catch` with its retry policy, and the outermost `catch` for
errors raised outside the inner region.  Every omitted `retries` argument in
a recursive call re-defaults to `0`. -/
def actFresh (env : Env) (p : ActParams) : StepOutcome × List Event :=
  let dg := downgradeVision p.llmClient.hasVision p.useVision p.verifierUseVision
  let uv := dg.1
  let vv := dg.2
  match env.processDom p.chunksSeen with
  | .error e => actOuterCatch env p e [.processDomCall p.chunksSeen]
  | .ok dom =>
    let oracleEv := Event.oracleCall p.action p.steps
    match env.inference p.action p.steps with
    | .error e => actOuterCatch env p e [.processDomCall p.chunksSeen, oracleEv]
    | .ok none =>
      if p.chunksSeen.length + 1 < dom.chunksLen then
        (.recurse { p with
            steps := p.steps ++ stepPrefix p.steps ++ "## Step: Scrolled to another section\n",
            chunksSeen := p.chunksSeen ++ [dom.chunk],
            useVision := uv, verifierUseVision := vv, retries := 0 },
         [.processDomCall p.chunksSeen, oracleEv])
      else if uv = VisionMode.fallback then
        match env.scrollReset with
        | .error e => actOuterCatch env p e [.processDomCall p.chunksSeen, oracleEv, .scrollToTop]
        | .ok _ =>
          (.recurse { p with useVision := VisionMode.on, verifierUseVision := vv, retries := 0 },
           [.processDomCall p.chunksSeen, oracleEv, .scrollToTop])
      else
        (.done ⟨false, "Action was not able to be completed.", p.action⟩,
         [.processDomCall p.chunksSeen, oracleEv] ++ purgeEvents env p)
    | .ok (some resp) =>
      match actExecuteRegion env p uv vv dom resp with
      | (.ok out, evs) => (out, [.processDomCall p.chunksSeen, oracleEv] ++ evs)
      | (.error _, evs) =>
        if p.retries < 2 then
          (.recurse { p with useVision := uv, verifierUseVision := vv, retries := p.retries + 1 },
           [.processDomCall p.chunksSeen, oracleEv] ++ evs)
        else
          (.done ⟨false, "error performing action - a", p.action⟩,
           [.processDomCall p.chunksSeen, oracleEv] ++ evs ++
             [.recordOutcome p.action ""] ++ purgeEvents env p)

/-- One invocation of `act`, defunctionalized: settle the DOM, run the cache
block when enabled and not bypassed, otherwise the fresh-inference region.
A `null` from `_runCachedActionIfAvailable` re-enters `act` with the bypass
flag set (line 1080); any non-null response is returned as is. -/
def actStep (env : Env) (p : ActParams) : StepOutcome × List Event :=
  match env.settle with
  | .error e => actOuterCatch env p e []
  | .ok _ =>
    if env.enableCaching = true ∧ p.skipActionCacheForThisStep = false then
      match runCachedActionIfAvailable env p with
      | (.finished r, evs) => (.done r, evs)
      | (.continueAct p2, evs) => (.recurse p2, evs)
      | (.noCache, evs) => (.recurse { p with skipActionCacheForThisStep := true }, evs)
    else actFresh env p

/-- Iterated `act` with explicit fuel: `none` means the fuel ran out before
a result was returned. -/
def actIter (env : Env) : Nat → ActParams → Option (ActResult × List Event)
  | 0, _ => none
  | fuel + 1, p =>
    match actStep env p with
    | (.done r, evs) => some (r, evs)
    | (.recurse p2, evs) =>
      match actIter env fuel p2 with
      | none => none
      | some (r, evs2) => some (r, evs ++ evs2)

/-! ## Event observations -/

/-- Is this event a decision-oracle invocation? -/
def isOracleCall : Event → Bool
  | .oracleCall _ _ => true
  | _ => false

/-- Is this event a cache lookup? -/
def isCacheLookup : Event → Bool
  | .cacheLookup _ => true
  | _ => false

/-- Is this event a Playwright command execution? -/
def isPerformCmd : Event → Bool
  | .performCmd _ _ _ => true
  | _ => false

/-- Is this event a verification-oracle consultation? -/
def isVerifyCall : Event → Bool
  | .verifyCall _ _ => true
  | _ => false

/-- Number of decision-oracle invocations in a trace. -/
def oracleCallCount (evs : List Event) : Nat := (evs.filter isOracleCall).length

/-- The Playwright commands issued in a trace, in order. -/
def performCmds (evs : List Event) : List Event := evs.filter isPerformCmd

/-- The cache records written in a trace, in order. -/
def cacheWrites (evs : List Event) : List CacheRecord :=
  evs.filterMap fun e => match e with | .cacheAdd r => some r | _ => none

/-! ## Claim C4 — cached-step validation -/

/-- Validity of one candidate selector in the spec's words: the live element
resolves, its recomputed fingerprint and the stored one are both present and
non-empty, and they agree byte-for-byte after normalization. -/
def specCandidateValid (env : Env) (xpath saved : String) : Prop :=
  env.resolveOk xpath = true ∧
  ∃ cur, env.componentOf xpath = .ok cur ∧ cur ≠ "" ∧ saved ≠ "" ∧
    normalizeString cur = normalizeString saved

theorem getValidLoop_eq_find (env : Env) (saved : String) (l : List String) :
    getValidCachedStepXpathLoop env saved l =
      l.find? (fun x => checkIfCachedStepIsValid_oneXpath env x saved) := by
  induction l with
  | nil => rfl
  | cons x rest ih =>
    by_cases h : checkIfCachedStepIsValid_oneXpath env x saved <;>
      simp [getValidCachedStepXpathLoop, List.find?_cons, h, ih]

theorem checkValid_iff (env : Env) (x saved : String) :
    checkIfCachedStepIsValid_oneXpath env x saved = true ↔ specCandidateValid env x saved := by
  unfold checkIfCachedStepIsValid_oneXpath specCandidateValid
  by_cases hr : env.resolveOk x
  · simp only [hr, if_true, true_iff, true_and]
    cases hco : env.componentOf x with
    | error e => simp
    | ok cur =>
      by_cases hc : cur = ""
      · simp [hc]
      · by_cases hs : saved = ""
        · simp [hc, hs]
        · simp [hc, hs]
  · simp [hr]

/-- Claim C4: `_getValidCachedStepXpath` tries the stored candidates in
reverse order of the stored list and returns the first selector whose live
element's recomputed fingerprint equals the stored fingerprint after
normalization (trim + whitespace collapse on both sides); a candidate that
does not resolve, or whose live or stored fingerprint is missing/empty, is
invalid; if every candidate is invalid the validator returns `null`. -/
theorem claim_C4 :
    (∀ (env : Env) (xpaths : List String) (saved : String),
        getValidCachedStepXpath env xpaths saved =
          xpaths.reverse.find? (fun x => checkIfCachedStepIsValid_oneXpath env x saved)) ∧
    (∀ (env : Env) (x saved : String),
        checkIfCachedStepIsValid_oneXpath env x saved = true ↔ specCandidateValid env x saved) ∧
    (∀ (env : Env) (xpaths : List String) (saved : String),
        (∀ x ∈ xpaths, ¬ specCandidateValid env x saved) →
        getValidCachedStepXpath env xpaths saved = none) := by
  refine ⟨?_, checkValid_iff, ?_⟩
  · intro env xpaths saved
    exact getValidLoop_eq_find env saved xpaths.reverse
  · intro env xpaths saved h
    rw [getValidCachedStepXpath, getValidLoop_eq_find, List.find?_eq_none]
    intro x hx
    rw [Bool.not_eq_true, ← Bool.not_eq_true (checkIfCachedStepIsValid_oneXpath env x saved)]
    rw [checkValid_iff]
    exact h x (List.mem_reverse.mp hx)

/-- A concrete environment in which nothing resolves and the stores are
empty; used by several closed instantiations below. -/
def envNoResolve : Env :=
  { pageUrl := "https://example.com/"
    enableCaching := true
    enableRecording := false
    settle := .ok ()
    cacheGet := fun _ => none
    processDom := fun _ => .error "processDom unavailable"
    inference := fun _ _ => .ok none
    verifyOracle := fun _ _ => .ok true
    resolveOk := fun _ => false
    componentOf := fun _ => .error "element not found"
    performErr := fun _ _ _ => none
    fillInVariables := fun s _ => s
    scrollReset := .ok () }

theorem claim_C4_witness :
    (∀ x ∈ ["//button[1]"], ¬ specCandidateValid envNoResolve x "<button>Go</button>") ∧
    getValidCachedStepXpath envNoResolve ["//button[1]"] "<button>Go</button>" = none := by
  have h : ∀ x ∈ ["//button[1]"], ¬ specCandidateValid envNoResolve x "<button>Go</button>" := by
    intro x _ hv
    exact Bool.false_ne_true hv.1
  exact ⟨h, claim_C4.2.2 envNoResolve ["//button[1]"] "<button>Go</button>" h⟩

/-! ## Event-filter helper lemmas -/

theorem purgeEvents_filter (env : Env) (p : ActParams) (f : Event → Bool)
    (hl : f (Event.purgeLLMCache p.requestId) = false)
    (ha : f (Event.purgeActionCache p.requestId) = false) :
    (purgeEvents env p).filter f = [] := by
  unfold purgeEvents
  split <;> simp [hl, ha]

theorem verifyActionCompletion_filter (env : Env) (c : Bool) (a s : String) (f : Event → Bool)
    (hv : ∀ a' s', f (Event.verifyCall a' s') = false) :
    ((verifyActionCompletion env c a s).2).filter f = [] := by
  unfold verifyActionCompletion
  split
  · cases h : env.verifyOracle a s <;> simp [h, hv]
  · simp

theorem actExecuteRegion_filter (env : Env) (p : ActParams) (uv : VisionMode) (vv : Bool)
    (dom : DomChunkResult) (resp : InferResponse) (f : Event → Bool)
    (hp : ∀ m a x, f (Event.performCmd m a x) = false)
    (hca : ∀ r, f (Event.cacheAdd r) = false)
    (hra : ∀ r, f (Event.recorderAdd r) = false)
    (hv : ∀ a s, f (Event.verifyCall a s) = false)
    (hro : ∀ a r, f (Event.recordOutcome a r) = false) :
    ((actExecuteRegion env p uv vv dom resp).2).filter f = [] := by
  have hverify : ∀ c a s, ((verifyActionCompletion env c a s).2).filter f = [] :=
    fun c a s => verifyActionCompletion_filter env c a s f hv
  unfold actExecuteRegion
  cases hfind : List.find? env.resolveOk (dom.selectorMap resp.element) with
  | none => simp [hfind]
  | some fx =>
    cases hcomp : env.componentOf fx with
    | error e => simp [hfind, hcomp]
    | ok comp =>
      cases hperf : env.performErr resp.method
          (resp.args.map fun arg => env.fillInVariables arg p.variablesMap) fx with
      | some e => simp [hfind, hcomp, hperf, hp]
      | none =>
        cases hver : verifyActionCompletion env resp.completed p.action
            (p.steps ++ mkNewStepString p.steps resp (elementTextOf dom.outputString resp.element)) with
        | mk vres vEvs =>
          have hvf : vEvs.filter f = [] := by
            have h0 := hverify resp.completed p.action
              (p.steps ++ mkNewStepString p.steps resp (elementTextOf dom.outputString resp.element))
            rw [hver] at h0
            exact h0
          rcases vres with e | b
          · by_cases hec : env.enableCaching <;> by_cases her : env.enableRecording <;>
              simp [hfind, hcomp, hperf, hver, hec, her, List.filter_append, hp, hca, hra, hro, hvf]
          · cases b <;>
            · by_cases hec : env.enableCaching <;> by_cases her : env.enableRecording <;>
                simp [hfind, hcomp, hperf, hver, hec, her, List.filter_append, hp, hca, hra, hro,
                  hvf]

/-! ## Claim C5 — cache replay issues exactly the recorded command -/

theorem runCached_filter (env : Env) (p : ActParams) (f : Event → Bool)
    (hl : ∀ k, f (Event.cacheLookup k) = false)
    (hr : ∀ k, f (Event.cacheRemove k) = false)
    (hra : ∀ r, f (Event.recorderAdd r) = false)
    (hpd : ∀ s, f (Event.processDomCall s) = false)
    (hv : ∀ a s, f (Event.verifyCall a s) = false)
    (hp : ∀ m a x, f (Event.performCmd m a x) = false) :
    ((runCachedActionIfAvailable env p).2).filter f = [] := by
  unfold runCachedActionIfAvailable
  by_cases hec : env.enableCaching
  · simp only [hec, if_true]
    cases hget : env.cacheGet (cacheKeyOf env p) with
    | none => simp [hget, hl]
    | some st =>
      simp only [hget]
      cases hvalid : getValidCachedStepXpath env st.xpaths st.componentString with
      | none => simp [hvalid, hl, hr]
      | some vx =>
        simp only [hvalid]
        cases hperf : env.performErr st.playwrightCommand.method
            (st.playwrightCommand.args.map fun arg => env.fillInVariables arg p.variablesMap)
            vx with
        | some e => simp [hperf, hl, hr, hp]
        | none =>
          simp only [hperf]
          cases hdom : env.processDom p.chunksSeen with
          | error e =>
            by_cases her : env.enableRecording <;>
              simp [hdom, her, List.filter_append, hl, hr, hra, hpd, hp]
          | ok d =>
            simp only [hdom]
            by_cases hcompl : st.completed
            · cases hver : verifyActionCompletion env true p.action
                  (p.steps ++ st.newStepString) with
              | mk vres vEvs =>
                have hvf : vEvs.filter f = [] := by
                  have h0 := verifyActionCompletion_filter env true p.action
                    (p.steps ++ st.newStepString) f hv
                  rw [hver] at h0
                  exact h0
                rcases vres with e | b
                · by_cases her : env.enableRecording <;>
                    simp [hcompl, hver, her, List.filter_append, hl, hr, hra, hpd, hp, hvf]
                · cases b <;>
                  · by_cases her : env.enableRecording <;>
                      simp [hcompl, hver, her, List.filter_append, hl, hr, hra, hpd, hp, hvf]
            · by_cases her : env.enableRecording <;>
                simp [hcompl, her, List.filter_append, hl, hr, hra, hpd, hp]
  · simp [hec]

theorem runCached_no_oracle (env : Env) (p : ActParams) :
    oracleCallCount (runCachedActionIfAvailable env p).2 = 0 := by
  unfold oracleCallCount
  rw [runCached_filter env p isOracleCall (fun _ => rfl) (fun _ => rfl) (fun _ => rfl)
    (fun _ => rfl) (fun _ _ => rfl) (fun _ _ _ => rfl)]
  rfl

/-- Claim C5: on a validated cache hit the replay path issues exactly the
recorded command — the stored method with the stored argument list, each
argument transformed only by `fillInVariables` against the request's
variable map, against the validated selector — and the decision oracle is
never invoked on the replay path. -/
theorem claim_C5 :
    ∀ (env : Env) (p : ActParams) (st : CachedStep) (vx : String),
      env.enableCaching = true →
      env.cacheGet (cacheKeyOf env p) = some st →
      getValidCachedStepXpath env st.xpaths st.componentString = some vx →
      performCmds (runCachedActionIfAvailable env p).2 =
        [Event.performCmd st.playwrightCommand.method
          (st.playwrightCommand.args.map fun arg => env.fillInVariables arg p.variablesMap) vx] ∧
      oracleCallCount (runCachedActionIfAvailable env p).2 = 0 := by
  intro env p st vx hec hget hvalid
  refine ⟨?_, runCached_no_oracle env p⟩
  unfold performCmds runCachedActionIfAvailable
  simp only [hec, if_true, hget, hvalid]
  cases hperf : env.performErr st.playwrightCommand.method
      (st.playwrightCommand.args.map fun arg => env.fillInVariables arg p.variablesMap) vx with
  | some e => simp [hperf, isPerformCmd]
  | none =>
    simp only [hperf]
    cases hdom : env.processDom p.chunksSeen with
    | error e =>
      by_cases her : env.enableRecording <;>
        simp [hdom, her, List.filter_append, isPerformCmd]
    | ok d =>
      simp only [hdom]
      by_cases hcompl : st.completed
      · cases hver : verifyActionCompletion env true p.action
            (p.steps ++ st.newStepString) with
        | mk vres vEvs =>
          have hvf : vEvs.filter isPerformCmd = [] := by
            have h0 := verifyActionCompletion_filter env true p.action
              (p.steps ++ st.newStepString) isPerformCmd (fun _ _ => rfl)
            rw [hver] at h0
            exact h0
          rcases vres with e | b
          · by_cases her : env.enableRecording <;>
              simp [hcompl, hver, her, List.filter_append, isPerformCmd, hvf]
          · cases b <;>
            · by_cases her : env.enableRecording <;>
                simp [hcompl, hver, her, List.filter_append, isPerformCmd, hvf]
      · by_cases her : env.enableRecording <;>
          simp [hcompl, her, List.filter_append, isPerformCmd]

/-- A cached step whose replay validates against `envHit` below. -/
def stepHit : CachedStep :=
  { xpaths := ["//a[1]", "//a[2]"]
    componentString := "<a href=\"/go\">Go</a>"
    playwrightCommand := ⟨"click", ["ok"]⟩
    newStepString := "## Step: click go\n"
    completed := true }

/-- An environment with a validated cache hit for `stepHit`. -/
def envHit : Env :=
  { pageUrl := "https://example.com/"
    enableCaching := true
    enableRecording := false
    settle := .ok ()
    cacheGet := fun _ => some stepHit
    processDom := fun _ => .ok ⟨"3: Go", fun _ => ["//a[1]"], 0, 1⟩
    inference := fun _ _ => .ok none
    verifyOracle := fun _ _ => .ok true
    resolveOk := fun _ => true
    componentOf := fun _ => .ok "<a   href=\"/go\">Go</a>"
    performErr := fun _ _ _ => none
    fillInVariables := fun s _ => s
    scrollReset := .ok () }

/-- A baseline parameter object for concrete runs. -/
def pBase : ActParams :=
  { action := "click the Go link"
    steps := ""
    chunksSeen := []
    llmClient := ⟨"gpt-4o", true⟩
    useVision := VisionMode.off
    verifierUseVision := false
    retries := 0
    requestId := "req-1"
    variablesMap := []
    previousSelectors := []
    skipActionCacheForThisStep := false
    domSettleTimeoutMs := none }

theorem claim_C5_witness :
    envHit.enableCaching = true ∧
    envHit.cacheGet (cacheKeyOf envHit pBase) = some stepHit ∧
    getValidCachedStepXpath envHit stepHit.xpaths stepHit.componentString = some "//a[2]" ∧
    performCmds (runCachedActionIfAvailable envHit pBase).2 =
      [Event.performCmd "click" ["ok"] "//a[2]"] := by
  have h := claim_C5 envHit pBase stepHit "//a[2]" rfl rfl (by decide)
  exact ⟨rfl, rfl, by decide, h.1⟩

/-! ## Claim C2 — invalidated cache entries are deleted and bypassed once -/

theorem actExecuteRegion_no_oracle (env : Env) (p : ActParams) (uv : VisionMode) (vv : Bool)
    (dom : DomChunkResult) (resp : InferResponse) :
    ((actExecuteRegion env p uv vv dom resp).2).filter isOracleCall = [] :=
  actExecuteRegion_filter env p uv vv dom resp isOracleCall
    (fun _ _ _ => rfl) (fun _ => rfl) (fun _ => rfl) (fun _ _ => rfl) (fun _ _ => rfl)

theorem actExecuteRegion_no_lookup (env : Env) (p : ActParams) (uv : VisionMode) (vv : Bool)
    (dom : DomChunkResult) (resp : InferResponse) :
    ((actExecuteRegion env p uv vv dom resp).2).filter isCacheLookup = [] :=
  actExecuteRegion_filter env p uv vv dom resp isCacheLookup
    (fun _ _ _ => rfl) (fun _ => rfl) (fun _ => rfl) (fun _ _ => rfl) (fun _ _ => rfl)

/-- Claim C2: when the cache lookup returns a stored step and no candidate
selector passes fingerprint validation, the cached step is deleted from the
store under the same key and `null` is returned; `act` then re-enters once
with `skipActionCacheForThisStep := true` and all other arguments unchanged;
and in that bypassed re-entry no cache lookup happens at all while the
decision oracle is invoked exactly once. -/
theorem claim_C2 :
    (∀ (env : Env) (p : ActParams) (st : CachedStep),
        env.enableCaching = true →
        env.cacheGet (cacheKeyOf env p) = some st →
        getValidCachedStepXpath env st.xpaths st.componentString = none →
        runCachedActionIfAvailable env p =
          (CachedOutcome.noCache,
           [Event.cacheLookup (cacheKeyOf env p), Event.cacheRemove (cacheKeyOf env p)])) ∧
    (∀ (env : Env) (p : ActParams),
        env.settle = .ok () →
        env.enableCaching = true →
        p.skipActionCacheForThisStep = false →
        (runCachedActionIfAvailable env p).1 = CachedOutcome.noCache →
        actStep env p =
          (StepOutcome.recurse { p with skipActionCacheForThisStep := true },
           (runCachedActionIfAvailable env p).2)) ∧
    (∀ (env : Env) (p : ActParams) (dom : DomChunkResult),
        p.skipActionCacheForThisStep = true →
        env.settle = .ok () →
        env.processDom p.chunksSeen = .ok dom →
        ((actStep env p).2).filter isCacheLookup = [] ∧
        oracleCallCount (actStep env p).2 = 1) := by
  refine ⟨?_, ?_, ?_⟩
  · intro env p st hec hget hvalid
    unfold runCachedActionIfAvailable
    simp [hec, hget, hvalid]
  · intro env p hsettle hec hskip h1
    unfold actStep
    rw [hsettle]
    simp only [hec, hskip, and_self, if_true]
    cases hrc : runCachedActionIfAvailable env p with
    | mk out evs =>
      rw [hrc] at h1
      simp only at h1
      subst h1
      simp
  · intro env p dom hskip hsettle hdom
    have hact : actStep env p = actFresh env p := by
      unfold actStep
      rw [hsettle]
      simp [hskip]
    rw [hact]
    unfold actFresh
    simp only [hdom]
    cases hinf : env.inference p.action p.steps with
    | error e =>
      constructor
      · simp only [actOuterCatch, List.filter_append]
        rw [purgeEvents_filter env p isCacheLookup rfl rfl]
        simp [isCacheLookup]
      · simp only [actOuterCatch, oracleCallCount, List.filter_append]
        rw [purgeEvents_filter env p isOracleCall rfl rfl]
        simp [isOracleCall]
    | ok o =>
      cases o with
      | none =>
        by_cases hroom : p.chunksSeen.length + 1 < dom.chunksLen
        · simp [hroom, oracleCallCount, isOracleCall, isCacheLookup]
        · simp only [hroom, if_false]
          by_cases hfb :
              (downgradeVision p.llmClient.hasVision p.useVision p.verifierUseVision).1 =
                VisionMode.fallback
          · simp only [hfb, if_true]
            cases hscroll : env.scrollReset with
            | error e =>
              constructor
              · simp only [actOuterCatch, List.filter_append]
                rw [purgeEvents_filter env p isCacheLookup rfl rfl]
                simp [isCacheLookup]
              · simp only [actOuterCatch, oracleCallCount, List.filter_append]
                rw [purgeEvents_filter env p isOracleCall rfl rfl]
                simp [isOracleCall]
            | ok u => simp [oracleCallCount, isOracleCall, isCacheLookup]
          · simp only [hfb, if_false]
            constructor
            · simp only [List.filter_append]
              rw [purgeEvents_filter env p isCacheLookup rfl rfl]
              simp [isCacheLookup]
            · simp only [oracleCallCount, List.filter_append]
              rw [purgeEvents_filter env p isOracleCall rfl rfl]
              simp [isOracleCall]
      | some resp =>
        cases hreg : actExecuteRegion env p
            (downgradeVision p.llmClient.hasVision p.useVision p.verifierUseVision).1
            (downgradeVision p.llmClient.hasVision p.useVision p.verifierUseVision).2
            dom resp with
        | mk rout revs =>
          have hnoLookup : revs.filter isCacheLookup = [] := by
            have h0 := actExecuteRegion_no_lookup env p
              (downgradeVision p.llmClient.hasVision p.useVision p.verifierUseVision).1
              (downgradeVision p.llmClient.hasVision p.useVision p.verifierUseVision).2 dom resp
            rw [hreg] at h0
            exact h0
          have hnoOracle : revs.filter isOracleCall = [] := by
            have h0 := actExecuteRegion_no_oracle env p
              (downgradeVision p.llmClient.hasVision p.useVision p.verifierUseVision).1
              (downgradeVision p.llmClient.hasVision p.useVision p.verifierUseVision).2 dom resp
            rw [hreg] at h0
            exact h0
          simp only [hreg]
          rcases rout with e | out
          · by_cases hret : p.retries < 2
            · simp [hret, oracleCallCount, isOracleCall, isCacheLookup, List.filter_append,
                hnoLookup, hnoOracle]
            · constructor
              · simp only [hret, if_false, List.filter_append]
                rw [purgeEvents_filter env p isCacheLookup rfl rfl]
                simp [isCacheLookup, hnoLookup]
              · simp only [hret, if_false, oracleCallCount, List.filter_append]
                rw [purgeEvents_filter env p isOracleCall rfl rfl]
                simp [isOracleCall, hnoOracle]
          · simp [oracleCallCount, isOracleCall, isCacheLookup, List.filter_append,
              hnoLookup, hnoOracle]

/-- A stale-cache environment: the stored step exists but nothing resolves. -/
def envStale : Env := { envNoResolve with cacheGet := fun _ => some stepHit }

theorem claim_C2_witness :
    envStale.enableCaching = true ∧
    envStale.cacheGet (cacheKeyOf envStale pBase) = some stepHit ∧
    getValidCachedStepXpath envStale stepHit.xpaths stepHit.componentString = none ∧
    runCachedActionIfAvailable envStale pBase =
      (CachedOutcome.noCache,
       [Event.cacheLookup (cacheKeyOf envStale pBase),
        Event.cacheRemove (cacheKeyOf envStale pBase)]) ∧
    ((actStep envHit { pBase with skipActionCacheForThisStep := true }).2).filter
        isCacheLookup = [] := by
  refine ⟨rfl, rfl, by decide, ?_, ?_⟩
  · exact claim_C2.1 envStale pBase stepHit rfl rfl (by decide)
  · exact (claim_C2.2.2 envHit { pBase with skipActionCacheForThisStep := true }
      ⟨"3: Go", fun _ => ["//a[1]"], 0, 1⟩ rfl rfl rfl).1

/-! ## Claims C7, C9, C8, C10 — verification bias, continuation, fall-through, cache writes -/

/-- Extract the parameters of a recursive tail call, when there is one. -/
def recursedParams : StepOutcome → Option ActParams
  | .recurse p => some p
  | .done _ => none

theorem actStep_fresh_of_skip (env : Env) (p : ActParams)
    (hskip : p.skipActionCacheForThisStep = true) (hsettle : env.settle = .ok ()) :
    actStep env p = actFresh env p := by
  unfold actStep
  rw [hsettle]
  simp [hskip]

/-- Claim C7: `_verifyActionCompletion` returns `false` without consulting
the verification oracle when the step does not claim completion; and when a
completed step's verification raises, the `.catch` in `act` coerces the
result to completed, so `act` returns a success result instead of retrying
or failing. -/
theorem claim_C7 :
    (∀ (env : Env) (action steps : String),
        verifyActionCompletion env false action steps = (.ok false, [])) ∧
    (∀ (env : Env) (p : ActParams) (dom : DomChunkResult) (resp : InferResponse)
        (fx comp emsg : String),
        p.skipActionCacheForThisStep = true →
        env.settle = .ok () →
        env.processDom p.chunksSeen = .ok dom →
        env.inference p.action p.steps = .ok (some resp) →
        (dom.selectorMap resp.element).find? env.resolveOk = some fx →
        env.componentOf fx = .ok comp →
        env.performErr resp.method
          (resp.args.map fun arg => env.fillInVariables arg p.variablesMap) fx = none →
        resp.completed = true →
        env.verifyOracle p.action
          (p.steps ++ mkNewStepString p.steps resp (elementTextOf dom.outputString resp.element))
          = .error emsg →
        (actStep env p).1 =
          StepOutcome.done ⟨true,
            "Action completed successfully: " ++
              (p.steps ++ mkNewStepString p.steps resp (elementTextOf dom.outputString resp.element))
              ++ resp.step, p.action⟩) := by
  constructor
  · intro env action steps
    rfl
  · intro env p dom resp fx comp emsg hskip hsettle hdom hinf hfx hcomp hperf hcompl hver
    rw [actStep_fresh_of_skip env p hskip hsettle]
    unfold actFresh
    simp only [hdom, hinf]
    unfold actExecuteRegion
    simp only [hfx, hcomp, hperf]
    unfold verifyActionCompletion
    simp only [hcompl, if_true, hver]

/-- The decision of a fresh step on `domFresh` below. -/
def respDone : InferResponse :=
  ⟨3, "click", [], "click the Go link", "the link matches the goal", true⟩

/-- The same decision without the completion claim. -/
def respIncomplete : InferResponse :=
  ⟨3, "click", [], "click the Go link", "the link matches the goal", false⟩

/-- A one-chunk document exposing element 3. -/
def domFresh : DomChunkResult := ⟨"3: Go link", fun _ => ["//a[1]"], 0, 1⟩

/-- A fresh-inference environment: empty cache, one chunk, decision `respDone`. -/
def envFresh : Env :=
  { envHit with
    cacheGet := (fun _ => none)
    processDom := (fun _ => .ok domFresh)
    inference := (fun _ _ => .ok (some respDone)) }

/-- `envFresh` with a crashing verification step. -/
def envVerifyErr : Env :=
  { envFresh with verifyOracle := (fun _ _ => .error "verifier crashed") }

/-- `envFresh` whose decision does not claim completion. -/
def envC9 : Env := { envFresh with inference := (fun _ _ => .ok (some respIncomplete)) }

/-- `envHit` whose verification oracle answers `false` on replay. -/
def envC8 : Env := { envHit with verifyOracle := (fun _ _ => .ok false) }

/-- `pBase` with the cache bypassed for this step. -/
def pSkip : ActParams := { pBase with skipActionCacheForThisStep := true }

theorem claim_C7_witness :
    verifyActionCompletion envVerifyErr false "goal" "steps" = (.ok false, []) ∧
    envVerifyErr.verifyOracle pSkip.action
      (pSkip.steps ++ mkNewStepString pSkip.steps respDone
        (elementTextOf domFresh.outputString respDone.element)) = .error "verifier crashed" ∧
    (actStep envVerifyErr pSkip).1 =
      StepOutcome.done ⟨true,
        "Action completed successfully: " ++
          (pSkip.steps ++ mkNewStepString pSkip.steps respDone
            (elementTextOf domFresh.outputString respDone.element))
          ++ respDone.step, pSkip.action⟩ := by
  refine ⟨claim_C7.1 envVerifyErr "goal" "steps", rfl, ?_⟩
  exact claim_C7.2 envVerifyErr pSkip domFresh respDone "//a[1]" "<a   href=\"/go\">Go</a>"
    "verifier crashed" (by rfl) (by rfl) (by rfl) (by rfl) (by decide) (by rfl) (by rfl)
    (by rfl) (by rfl)

/-- Claim C9, amended: after a successfully executed fresh step whose
verification reports not-completed, `act` recurses with the resolved
selector appended to the previously-tried chain and the grown narrative —
but the `retries` argument is omitted from the recursive call, so the retry
counter re-defaults to `0` rather than keeping the current call's value. -/
theorem claim_C9_amended :
    ∀ (env : Env) (p : ActParams) (dom : DomChunkResult) (resp : InferResponse)
      (fx comp : String),
      p.skipActionCacheForThisStep = true →
      p.llmClient.hasVision = true →
      env.settle = .ok () →
      env.processDom p.chunksSeen = .ok dom →
      env.inference p.action p.steps = .ok (some resp) →
      (dom.selectorMap resp.element).find? env.resolveOk = some fx →
      env.componentOf fx = .ok comp →
      env.performErr resp.method
        (resp.args.map fun arg => env.fillInVariables arg p.variablesMap) fx = none →
      (resp.completed = false ∨
        env.verifyOracle p.action
          (p.steps ++ mkNewStepString p.steps resp (elementTextOf dom.outputString resp.element))
          = .ok false) →
      (actStep env p).1 =
        StepOutcome.recurse { p with
          steps := p.steps ++ mkNewStepString p.steps resp
            (elementTextOf dom.outputString resp.element),
          previousSelectors := p.previousSelectors ++ [fx],
          skipActionCacheForThisStep := false,
          retries := 0 } := by
  intro env p dom resp fx comp hskip hvision hsettle hdom hinf hfx hcomp hperf hdisj
  rw [actStep_fresh_of_skip env p hskip hsettle]
  unfold actFresh
  simp only [hdom, hinf]
  unfold actExecuteRegion
  simp only [hfx, hcomp, hperf]
  have hv1 : (verifyActionCompletion env resp.completed p.action
      (p.steps ++ mkNewStepString p.steps resp
        (elementTextOf dom.outputString resp.element))).1 = .ok false := by
    rcases hdisj with hc | hver
    · rw [hc]
      rfl
    · unfold verifyActionCompletion
      by_cases hcompl : resp.completed
      · simp [hcompl, hver]
      · simp [hcompl]
  cases hpair : verifyActionCompletion env resp.completed p.action
      (p.steps ++ mkNewStepString p.steps resp
        (elementTextOf dom.outputString resp.element)) with
  | mk vres vEvs =>
    rw [hpair] at hv1
    simp only at hv1
    subst hv1
    have hdg : downgradeVision p.llmClient.hasVision p.useVision p.verifierUseVision =
        (p.useVision, p.verifierUseVision) := by
      unfold downgradeVision
      simp [hvision]
    simp only [hpair, hdg]

theorem claim_C9_counterexample :
    ({ pSkip with retries := 2 } : ActParams).retries = 2 ∧
    (recursedParams (actStep envC9 { pSkip with retries := 2 }).1).map ActParams.retries =
      some 0 ∧
    (recursedParams (actStep envC9 { pSkip with retries := 2 }).1).map
      ActParams.previousSelectors = some ["//a[1]"] := by
  refine ⟨rfl, by decide, by decide⟩

theorem claim_C9_witness :
    (actStep envC9 pSkip).1 =
      StepOutcome.recurse { pSkip with
        steps := pSkip.steps ++ mkNewStepString pSkip.steps respIncomplete
          (elementTextOf domFresh.outputString respIncomplete.element),
        previousSelectors := pSkip.previousSelectors ++ ["//a[1]"],
        skipActionCacheForThisStep := false,
        retries := 0 } := by
  exact claim_C9_amended envC9 pSkip domFresh respIncomplete "//a[1]"
    "<a   href=\"/go\">Go</a>" (by rfl) (by rfl) (by rfl) (by rfl) (by rfl) (by decide)
    (by rfl) (by rfl) (Or.inl (by rfl))

/-- Claim C8, amended: when a validated cached replay's verification answers
`false` (or the cached step never claimed completion), the orchestrator
falls through to fresh inference with the FIRST stored selector appended to
the previously-tried chain and the bypass flag left CLEAR (the cache key
still changes because the chain grew); when the replayed command raises, the
cached entry is removed and `act` re-enters with the chain unchanged and the
bypass flag set. -/
theorem claim_C8_amended :
    (∀ (env : Env) (p : ActParams) (st : CachedStep) (vx : String) (d : DomChunkResult),
        env.enableCaching = true →
        env.cacheGet (cacheKeyOf env p) = some st →
        getValidCachedStepXpath env st.xpaths st.componentString = some vx →
        env.performErr st.playwrightCommand.method
          (st.playwrightCommand.args.map fun arg => env.fillInVariables arg p.variablesMap) vx
          = none →
        env.processDom p.chunksSeen = .ok d →
        (st.completed = false ∨
          env.verifyOracle p.action (p.steps ++ st.newStepString) = .ok false) →
        (runCachedActionIfAvailable env p).1 =
          CachedOutcome.continueAct
            { p with steps := p.steps ++ st.newStepString,
                     previousSelectors := p.previousSelectors ++ [st.xpaths.headD ""],
                     skipActionCacheForThisStep := false }) ∧
    (∀ (env : Env) (p : ActParams) (st : CachedStep) (vx emsg : String),
        env.settle = .ok () →
        p.skipActionCacheForThisStep = false →
        env.enableCaching = true →
        env.cacheGet (cacheKeyOf env p) = some st →
        getValidCachedStepXpath env st.xpaths st.componentString = some vx →
        env.performErr st.playwrightCommand.method
          (st.playwrightCommand.args.map fun arg => env.fillInVariables arg p.variablesMap) vx
          = some emsg →
        actStep env p =
          (StepOutcome.recurse { p with skipActionCacheForThisStep := true },
           [Event.cacheLookup (cacheKeyOf env p),
            Event.performCmd st.playwrightCommand.method
              (st.playwrightCommand.args.map fun arg => env.fillInVariables arg p.variablesMap)
              vx,
            Event.cacheRemove (cacheKeyOf env p)])) := by
  constructor
  · intro env p st vx d hec hget hvalid hperf hdom hdisj
    unfold runCachedActionIfAvailable
    simp only [hec, if_true, hget, hvalid, hperf, hdom]
    by_cases hcompl : st.completed
    · rcases hdisj with hc | hver
      · rw [hc] at hcompl
        cases hcompl
      · unfold verifyActionCompletion
        simp [hcompl, hver]
    · simp [hcompl]
  · intro env p st vx emsg hsettle hskip hec hget hvalid hperf
    unfold actStep
    rw [hsettle]
    simp only [hec, hskip, and_self, if_true]
    unfold runCachedActionIfAvailable
    simp only [hec, if_true, hget, hvalid, hperf]

theorem claim_C8_counterexample :
    getValidCachedStepXpath envC8 stepHit.xpaths stepHit.componentString = some "//a[2]" ∧
    (recursedParams (actStep envC8 pBase).1).map ActParams.skipActionCacheForThisStep =
      some false ∧
    (recursedParams (actStep envC8 pBase).1).map ActParams.previousSelectors =
      some ["//a[1]"] := by
  refine ⟨by decide, by decide, by decide⟩

/-- `envHit` whose Playwright command always raises. -/
def envC8b : Env := { envHit with performErr := (fun _ _ _ => some "click failed") }

theorem claim_C8_witness :
    (runCachedActionIfAvailable envC8 pBase).1 =
      CachedOutcome.continueAct
        { pBase with steps := pBase.steps ++ stepHit.newStepString,
                     previousSelectors := pBase.previousSelectors ++ [stepHit.xpaths.headD ""],
                     skipActionCacheForThisStep := false } ∧
    actStep envC8b pBase =
      (StepOutcome.recurse { pBase with skipActionCacheForThisStep := true },
       [Event.cacheLookup (cacheKeyOf envC8b pBase),
        Event.performCmd stepHit.playwrightCommand.method
          (stepHit.playwrightCommand.args.map
            fun arg => envC8b.fillInVariables arg pBase.variablesMap) "//a[2]",
        Event.cacheRemove (cacheKeyOf envC8b pBase)]) := by
  constructor
  · exact claim_C8_amended.1 envC8 pBase stepHit "//a[2]"
      ⟨"3: Go", fun _ => ["//a[1]"], 0, 1⟩ (by rfl) (by rfl) (by decide) (by rfl) (by rfl)
      (Or.inr (by rfl))
  · exact claim_C8_amended.2 envC8b pBase stepHit "//a[2]" "click failed"
      (by rfl) (by rfl) (by rfl) (by rfl) (by decide) (by rfl)

theorem verifyActionCompletion_writes (env : Env) (c : Bool) (a s : String) :
    cacheWrites (verifyActionCompletion env c a s).2 = [] := by
  unfold verifyActionCompletion cacheWrites
  split
  · cases h : env.verifyOracle a s <;> simp [h]
  · simp

theorem actStep_freshWrites (env : Env) (p : ActParams) (dom : DomChunkResult)
    (resp : InferResponse) (fx comp : String)
    (hskip : p.skipActionCacheForThisStep = true)
    (hsettle : env.settle = .ok ())
    (hdom : env.processDom p.chunksSeen = .ok dom)
    (hinf : env.inference p.action p.steps = .ok (some resp))
    (hfx : (dom.selectorMap resp.element).find? env.resolveOk = some fx)
    (hcomp : env.componentOf fx = .ok comp)
    (hperf : env.performErr resp.method
      (resp.args.map fun arg => env.fillInVariables arg p.variablesMap) fx = none)
    (hec : env.enableCaching = true) :
    cacheWrites (actStep env p).2 =
      [⟨p.action, env.pageUrl, p.previousSelectors, ⟨resp.method, resp.args⟩, comp,
        p.requestId, dom.selectorMap resp.element,
        mkNewStepString p.steps resp (elementTextOf dom.outputString resp.element),
        resp.completed⟩] ∧
    performCmds (actStep env p).2 =
      [Event.performCmd resp.method
        (resp.args.map fun arg => env.fillInVariables arg p.variablesMap) fx] := by
  rw [actStep_fresh_of_skip env p hskip hsettle]
  unfold actFresh
  simp only [hdom, hinf]
  unfold actExecuteRegion
  simp only [hfx, hcomp, hperf]
  cases hpair : verifyActionCompletion env resp.completed p.action
      (p.steps ++ mkNewStepString p.steps resp
        (elementTextOf dom.outputString resp.element)) with
  | mk vres vEvs =>
    have hw : List.filterMap
        (fun e => match e with | Event.cacheAdd r => some r | _ => none) vEvs = [] := by
      have h0 := verifyActionCompletion_writes env resp.completed p.action
        (p.steps ++ mkNewStepString p.steps resp (elementTextOf dom.outputString resp.element))
      rw [hpair] at h0
      simpa [cacheWrites] using h0
    have hpc : vEvs.filter isPerformCmd = [] := by
      have h0 := verifyActionCompletion_filter env resp.completed p.action
        (p.steps ++ mkNewStepString p.steps resp (elementTextOf dom.outputString resp.element))
        isPerformCmd (fun _ _ => rfl)
      rw [hpair] at h0
      exact h0
    rcases vres with e | b
    · by_cases her : env.enableRecording <;>
        simp [hec, her, cacheWrites, performCmds, List.filter_append, List.filterMap_append,
          isPerformCmd, hw, hpc]
    · cases b <;>
      · by_cases her : env.enableRecording <;>
          simp [hec, her, cacheWrites, performCmds, List.filter_append, List.filterMap_append,
            isPerformCmd, hw, hpc]

/-- Claim C10: the cache record written after a fresh step stores the
oracle's argument strings as produced BEFORE variable substitution (the
copy `responseArgs` taken before `fillInVariables` mutates `args`), while
the command actually executed uses the substituted arguments; the persisted
record is therefore independent of the variable map supplied at write time
(replay re-applies substitution against the replaying request's map, see
`runCachedActionIfAvailable`). -/
theorem claim_C10 :
    ∀ (env : Env) (p : ActParams) (dom : DomChunkResult) (resp : InferResponse)
      (fx comp : String),
      p.skipActionCacheForThisStep = true →
      env.settle = .ok () →
      env.processDom p.chunksSeen = .ok dom →
      env.inference p.action p.steps = .ok (some resp) →
      (dom.selectorMap resp.element).find? env.resolveOk = some fx →
      env.componentOf fx = .ok comp →
      env.performErr resp.method
        (resp.args.map fun arg => env.fillInVariables arg p.variablesMap) fx = none →
      env.enableCaching = true →
      (cacheWrites (actStep env p).2 =
        [⟨p.action, env.pageUrl, p.previousSelectors, ⟨resp.method, resp.args⟩, comp,
          p.requestId, dom.selectorMap resp.element,
          mkNewStepString p.steps resp (elementTextOf dom.outputString resp.element),
          resp.completed⟩] ∧
       performCmds (actStep env p).2 =
        [Event.performCmd resp.method
          (resp.args.map fun arg => env.fillInVariables arg p.variablesMap) fx]) ∧
      (∀ v2 : List (String × String),
        env.performErr resp.method
          (resp.args.map fun arg => env.fillInVariables arg v2) fx = none →
        cacheWrites (actStep env { p with variablesMap := v2 }).2 =
          cacheWrites (actStep env p).2) := by
  intro env p dom resp fx comp hskip hsettle hdom hinf hfx hcomp hperf hec
  have base := actStep_freshWrites env p dom resp fx comp hskip hsettle hdom hinf hfx hcomp
    hperf hec
  refine ⟨base, ?_⟩
  intro v2 hperf2
  have base2 := actStep_freshWrites env { p with variablesMap := v2 } dom resp fx comp hskip
    hsettle hdom hinf hfx hcomp hperf2 hec
  rw [base2.1, base.1]

theorem claim_C10_witness :
    cacheWrites (actStep envFresh pSkip).2 =
      [⟨pSkip.action, envFresh.pageUrl, pSkip.previousSelectors, ⟨respDone.method, respDone.args⟩,
        "<a   href=\"/go\">Go</a>", pSkip.requestId, domFresh.selectorMap respDone.element,
        mkNewStepString pSkip.steps respDone (elementTextOf domFresh.outputString respDone.element),
        respDone.completed⟩] ∧
    performCmds (actStep envFresh pSkip).2 =
      [Event.performCmd respDone.method
        (respDone.args.map fun arg => envFresh.fillInVariables arg pSkip.variablesMap) "//a[1]"] := by
  exact (claim_C10 envFresh pSkip domFresh respDone "//a[1]" "<a   href=\"/go\">Go</a>"
    (by rfl) (by rfl) (by rfl) (by rfl) (by decide) (by rfl) (by rfl) (by rfl)).1

/-! ## Claim C1 — exception handling and the bounded retry policy -/

theorem actIter_succ (env : Env) (fuel : Nat) (p : ActParams) :
    actIter env (fuel + 1) p =
      match actStep env p with
      | (.done r, evs) => some (r, evs)
      | (.recurse p2, evs) =>
        match actIter env fuel p2 with
        | none => none
        | some (r, evs2) => some (r, evs ++ evs2) := rfl

theorem actFresh_resolveFail (env : Env) (p : ActParams)
    (hdom : ∀ seen, ∃ d, env.processDom seen = .ok d)
    (hinf : ∀ a s, ∃ r, env.inference a s = .ok (some r))
    (hres : ∀ x, env.resolveOk x = false) :
    actFresh env p =
      if p.retries < 2 then
        (StepOutcome.recurse { p with
            useVision := (downgradeVision p.llmClient.hasVision p.useVision p.verifierUseVision).1,
            verifierUseVision :=
              (downgradeVision p.llmClient.hasVision p.useVision p.verifierUseVision).2,
            retries := p.retries + 1 },
         [.processDomCall p.chunksSeen, .oracleCall p.action p.steps])
      else
        (StepOutcome.done ⟨false, "error performing action - a", p.action⟩,
         [.processDomCall p.chunksSeen, .oracleCall p.action p.steps,
          .recordOutcome p.action ""] ++ purgeEvents env p) := by
  obtain ⟨d, hd⟩ := hdom p.chunksSeen
  obtain ⟨r, hr⟩ := hinf p.action p.steps
  unfold actFresh
  simp only [hd, hr]
  have hfind : (d.selectorMap r.element).find? env.resolveOk = none := by
    rw [List.find?_eq_none]
    intro x _
    simp [hres x]
  have hreg : actExecuteRegion env p
      (downgradeVision p.llmClient.hasVision p.useVision p.verifierUseVision).1
      (downgradeVision p.llmClient.hasVision p.useVision p.verifierUseVision).2 d r =
      (.error "None of the provided XPaths could be located.", []) := by
    unfold actExecuteRegion
    simp only [hfind]
  simp only [hreg]
  split <;> simp

/-- Claim C1, amended: an exception escaping the inner execute/verify region
is caught once per call: below the retry cap the step retries with the
counter incremented and the vision flags replaced by their possibly
downgraded local values (off when the model lacks vision) — all other
arguments unchanged; at the cap it records an empty outcome, purges the
session's cache entries for the `requestId`, and returns a
`{success: false}` result.  Exceptions raised outside the inner region hit
the outermost catch, purge the cache and fail immediately without retrying;
and under persistently failing resolution a whole run terminates with a
failure result after at most two retries (four iterations from a cold
cache). -/
theorem claim_C1_amended :
    (∀ (env : Env) (p : ActParams) (dom : DomChunkResult) (resp : InferResponse) (emsg : String),
        p.skipActionCacheForThisStep = true →
        env.settle = .ok () →
        env.processDom p.chunksSeen = .ok dom →
        env.inference p.action p.steps = .ok (some resp) →
        (actExecuteRegion env p
          (downgradeVision p.llmClient.hasVision p.useVision p.verifierUseVision).1
          (downgradeVision p.llmClient.hasVision p.useVision p.verifierUseVision).2
          dom resp).1 = .error emsg →
        p.retries < 2 →
        (actStep env p).1 = StepOutcome.recurse { p with
          useVision := (downgradeVision p.llmClient.hasVision p.useVision p.verifierUseVision).1,
          verifierUseVision :=
            (downgradeVision p.llmClient.hasVision p.useVision p.verifierUseVision).2,
          retries := p.retries + 1 }) ∧
    (∀ (env : Env) (p : ActParams) (dom : DomChunkResult) (resp : InferResponse) (emsg : String),
        p.skipActionCacheForThisStep = true →
        env.settle = .ok () →
        env.processDom p.chunksSeen = .ok dom →
        env.inference p.action p.steps = .ok (some resp) →
        (actExecuteRegion env p
          (downgradeVision p.llmClient.hasVision p.useVision p.verifierUseVision).1
          (downgradeVision p.llmClient.hasVision p.useVision p.verifierUseVision).2
          dom resp).1 = .error emsg →
        ¬ p.retries < 2 →
        (actStep env p).1 = StepOutcome.done ⟨false, "error performing action - a", p.action⟩ ∧
        Event.recordOutcome p.action "" ∈ (actStep env p).2 ∧
        (env.enableCaching = true →
          Event.purgeLLMCache p.requestId ∈ (actStep env p).2 ∧
          Event.purgeActionCache p.requestId ∈ (actStep env p).2)) ∧
    (∀ (env : Env) (p : ActParams) (emsg : String),
        env.settle = .error emsg →
        actStep env p =
          (StepOutcome.done ⟨false, "Error performing action - C: " ++ emsg, p.action⟩,
           purgeEvents env p)) ∧
    (∀ (env : Env) (p : ActParams),
        env.settle = .ok () →
        env.enableCaching = true →
        (∀ k, env.cacheGet k = none) →
        (∀ seen, ∃ d, env.processDom seen = .ok d) →
        (∀ a s, ∃ r, env.inference a s = .ok (some r)) →
        (∀ x, env.resolveOk x = false) →
        p.retries = 0 → p.skipActionCacheForThisStep = false →
        ∃ evs, actIter env 4 p =
          some (⟨false, "error performing action - a", p.action⟩, evs)) := by
  refine ⟨?_, ?_, ?_, ?_⟩
  · intro env p dom resp emsg hskip hsettle hdom hinf hreg hret
    rw [actStep_fresh_of_skip env p hskip hsettle]
    unfold actFresh
    simp only [hdom, hinf]
    cases hpair : actExecuteRegion env p
        (downgradeVision p.llmClient.hasVision p.useVision p.verifierUseVision).1
        (downgradeVision p.llmClient.hasVision p.useVision p.verifierUseVision).2
        dom resp with
    | mk rout revs =>
      rw [hpair] at hreg
      simp only at hreg
      subst hreg
      simp [hret]
  · intro env p dom resp emsg hskip hsettle hdom hinf hreg hret
    rw [actStep_fresh_of_skip env p hskip hsettle]
    unfold actFresh
    simp only [hdom, hinf]
    cases hpair : actExecuteRegion env p
        (downgradeVision p.llmClient.hasVision p.useVision p.verifierUseVision).1
        (downgradeVision p.llmClient.hasVision p.useVision p.verifierUseVision).2
        dom resp with
    | mk rout revs =>
      rw [hpair] at hreg
      simp only at hreg
      subst hreg
      refine ⟨by simp [hret], by simp [hret], fun hec => ?_⟩
      constructor <;> simp [hret, purgeEvents, hec]
  · intro env p emsg hsettle
    unfold actStep
    rw [hsettle]
    simp [actOuterCatch]
  · intro env p hsettle hec hget hdomh hinfh hres hret hskip
    have hrc : runCachedActionIfAvailable env p = (.noCache, [.cacheLookup (cacheKeyOf env p)]) := by
      unfold runCachedActionIfAvailable
      simp [hec, hget]
    have h1 : actStep env p =
        (.recurse { p with skipActionCacheForThisStep := true },
         [.cacheLookup (cacheKeyOf env p)]) := by
      unfold actStep
      rw [hsettle]
      simp [hec, hskip, hrc]
    have hstep : ∀ q : ActParams, q.skipActionCacheForThisStep = true →
        actStep env q =
          if q.retries < 2 then
            (StepOutcome.recurse { q with
                useVision :=
                  (downgradeVision q.llmClient.hasVision q.useVision q.verifierUseVision).1,
                verifierUseVision :=
                  (downgradeVision q.llmClient.hasVision q.useVision q.verifierUseVision).2,
                retries := q.retries + 1 },
             [.processDomCall q.chunksSeen, .oracleCall q.action q.steps])
          else
            (StepOutcome.done ⟨false, "error performing action - a", q.action⟩,
             [.processDomCall q.chunksSeen, .oracleCall q.action q.steps,
              .recordOutcome q.action ""] ++ purgeEvents env q) := by
      intro q hq
      rw [actStep_fresh_of_skip env q hq hsettle]
      exact actFresh_resolveFail env q hdomh hinfh hres
    have run : ∀ (n : Nat) (q : ActParams), q.skipActionCacheForThisStep = true →
        q.retries + n = 3 → 1 ≤ n →
        ∃ evs, actIter env n q =
          some (⟨false, "error performing action - a", q.action⟩, evs) := by
      intro n
      induction n with
      | zero => intro q hq hr3 hn1; omega
      | succ m ih =>
        intro q hq hr3 _
        by_cases hm : m = 0
        · subst hm
          refine ⟨[.processDomCall q.chunksSeen, .oracleCall q.action q.steps,
            .recordOutcome q.action ""] ++ purgeEvents env q, ?_⟩
          rw [actIter_succ, hstep q hq, if_neg (by omega)]
        · have hlt : q.retries < 2 := by omega
          obtain ⟨evs, hevs⟩ := ih { q with
            useVision := (downgradeVision q.llmClient.hasVision q.useVision q.verifierUseVision).1,
            verifierUseVision :=
              (downgradeVision q.llmClient.hasVision q.useVision q.verifierUseVision).2,
            retries := q.retries + 1 } hq (by show q.retries + 1 + m = 3; omega) (by omega)
          refine ⟨[.processDomCall q.chunksSeen, .oracleCall q.action q.steps] ++ evs, ?_⟩
          rw [actIter_succ, hstep q hq, if_pos hlt]
          simp only [hevs]
    obtain ⟨evs, hevs⟩ := run 3 { p with skipActionCacheForThisStep := true } rfl
      (by show p.retries + 3 = 3; omega) (by omega)
    refine ⟨[.cacheLookup (cacheKeyOf env p)] ++ evs, ?_⟩
    rw [show (4 : Nat) = 3 + 1 from rfl, actIter_succ, h1]
    simp only [hevs]

/-- `envFresh` in which no candidate selector ever resolves. -/
def envC1 : Env := { envFresh with resolveOk := (fun _ => false) }

/-- `pSkip` asking for vision fallback from a model without vision support. -/
def pC1 : ActParams := { pSkip with useVision := VisionMode.fallback, llmClient := ⟨"o1-mini", false⟩ }

theorem claim_C1_counterexample :
    pC1.useVision = VisionMode.fallback ∧ pC1.retries = 0 ∧
    (recursedParams (actStep envC1 pC1).1).map ActParams.retries = some 1 ∧
    (recursedParams (actStep envC1 pC1).1).map ActParams.useVision = some VisionMode.off := by
  refine ⟨rfl, rfl, by decide, by decide⟩

/-- `envC1` whose DOM never settles. -/
def envSettleErr : Env := { envC1 with settle := .error "settle failed" }

theorem claim_C1_witness :
    actStep envSettleErr pBase =
      (StepOutcome.done
        ⟨false, "Error performing action - C: " ++ "settle failed", pBase.action⟩,
       purgeEvents envSettleErr pBase) ∧
    (∃ evs, actIter envC1 4 pBase =
      some (⟨false, "error performing action - a", pBase.action⟩, evs)) := by
  constructor
  · exact claim_C1_amended.2.2.1 envSettleErr pBase "settle failed" (by rfl)
  · exact claim_C1_amended.2.2.2 envC1 pBase (by rfl) (by rfl) (fun k => by rfl)
      (fun seen => ⟨domFresh, by rfl⟩) (fun a s => ⟨respDone, by rfl⟩) (fun x => by rfl)
      (by rfl) (by rfl)

/-! ## Claim C6 — chunk scan termination and vision fallback -/

theorem downgradeVision_id (uv : VisionMode) (vv : Bool) :
    downgradeVision true uv vv = (uv, vv) := by
  unfold downgradeVision
  simp

theorem actStep_fresh_of_noCaching (env : Env) (p : ActParams)
    (hc : env.enableCaching = false) (hsettle : env.settle = .ok ()) :
    actStep env p = actFresh env p := by
  unfold actStep
  rw [hsettle]
  simp [hc]

theorem c6_scan_run (env : Env) (N : Nat)
    (hcache : env.enableCaching = false)
    (hsettle : env.settle = .ok ())
    (hdom : ∀ seen, ∃ d, env.processDom seen = .ok d ∧ d.chunksLen = N)
    (hinf : ∀ a s, env.inference a s = .ok none) :
    ∀ (n : Nat) (p : ActParams), p.llmClient.hasVision = true →
      p.useVision = VisionMode.off →
      p.chunksSeen.length + n = N → 1 ≤ n →
      ∃ evs, actIter env n p =
        some (⟨false, "Action was not able to be completed.", p.action⟩, evs) ∧
        oracleCallCount evs = n := by
  intro n
  induction n with
  | zero => intro p _ _ _ h1; omega
  | succ m ih =>
    intro p hvision huv hlen _
    obtain ⟨d, hd, hdN⟩ := hdom p.chunksSeen
    have hstep : actStep env p = actFresh env p :=
      actStep_fresh_of_noCaching env p hcache hsettle
    by_cases hm : m = 0
    · subst hm
      refine ⟨[.processDomCall p.chunksSeen, .oracleCall p.action p.steps], ?_,
        by simp [oracleCallCount, isOracleCall]⟩
      rw [actIter_succ, hstep]
      unfold actFresh
      simp only [hd, hinf p.action p.steps, hvision, downgradeVision_id]
      rw [if_neg (by omega), if_neg (by simp [huv])]
      simp [purgeEvents, hcache]
    · have hroom : p.chunksSeen.length + 1 < d.chunksLen := by omega
      obtain ⟨evs, hevs, hcount⟩ := ih { p with
        steps := p.steps ++ stepPrefix p.steps ++ "## Step: Scrolled to another section\n",
        chunksSeen := p.chunksSeen ++ [d.chunk],
        useVision := p.useVision, verifierUseVision := p.verifierUseVision,
        retries := 0 } hvision huv
        (by show (p.chunksSeen ++ [d.chunk]).length + m = N; simp; omega) (by omega)
      refine ⟨[.processDomCall p.chunksSeen, .oracleCall p.action p.steps] ++ evs, ?_, ?_⟩
      · rw [actIter_succ, hstep]
        unfold actFresh
        simp only [hd, hinf p.action p.steps, hvision, downgradeVision_id]
        rw [if_pos hroom]
        simp only [hevs]
      · simp only [oracleCallCount, List.filter_append] at hcount ⊢
        simp [isOracleCall, hcount]

/-- Claim C6: the fresh-inference scan — a null decision with room left adds
the current chunk to the seen list and recurses (oracle once per step);
once the seen list cannot grow below the chunk count, vision mode
`fallback` triggers exactly one recursive call with scroll reset and
vision forced on (which, being `on`, cannot trigger the fallback again);
any other mode returns a `{success: false}` result with the session's cache
entries purged when caching is on; and with the oracle always answering
null, a whole scan from an empty seen list over `N ≥ 1` chunks terminates
in exactly `N` oracle invocations. -/
theorem claim_C6 :
    (∀ (env : Env) (p : ActParams) (dom : DomChunkResult),
        p.skipActionCacheForThisStep = true →
        env.settle = .ok () →
        p.llmClient.hasVision = true →
        env.processDom p.chunksSeen = .ok dom →
        env.inference p.action p.steps = .ok none →
        p.chunksSeen.length + 1 < dom.chunksLen →
        actStep env p = (StepOutcome.recurse { p with
            steps := p.steps ++ stepPrefix p.steps ++ "## Step: Scrolled to another section\n",
            chunksSeen := p.chunksSeen ++ [dom.chunk], retries := 0 },
          [.processDomCall p.chunksSeen, .oracleCall p.action p.steps])) ∧
    (∀ (env : Env) (p : ActParams) (dom : DomChunkResult),
        p.skipActionCacheForThisStep = true →
        env.settle = .ok () →
        p.llmClient.hasVision = true →
        env.processDom p.chunksSeen = .ok dom →
        env.inference p.action p.steps = .ok none →
        ¬ p.chunksSeen.length + 1 < dom.chunksLen →
        p.useVision = VisionMode.fallback →
        env.scrollReset = .ok () →
        actStep env p = (StepOutcome.recurse
            { p with useVision := VisionMode.on, retries := 0 },
          [.processDomCall p.chunksSeen, .oracleCall p.action p.steps, .scrollToTop]) ∧
        VisionMode.on ≠ VisionMode.fallback) ∧
    (∀ (env : Env) (p : ActParams) (dom : DomChunkResult),
        p.skipActionCacheForThisStep = true →
        env.settle = .ok () →
        p.llmClient.hasVision = true →
        env.processDom p.chunksSeen = .ok dom →
        env.inference p.action p.steps = .ok none →
        ¬ p.chunksSeen.length + 1 < dom.chunksLen →
        p.useVision ≠ VisionMode.fallback →
        actStep env p = (StepOutcome.done
            ⟨false, "Action was not able to be completed.", p.action⟩,
          [.processDomCall p.chunksSeen, .oracleCall p.action p.steps] ++ purgeEvents env p)) ∧
    (∀ (env : Env) (p : ActParams) (N : Nat),
        env.enableCaching = false →
        env.settle = .ok () →
        (∀ seen, ∃ d, env.processDom seen = .ok d ∧ d.chunksLen = N) →
        (∀ a s, env.inference a s = .ok none) →
        p.llmClient.hasVision = true →
        p.useVision = VisionMode.off →
        p.chunksSeen = [] → 1 ≤ N →
        ∃ evs, actIter env N p =
          some (⟨false, "Action was not able to be completed.", p.action⟩, evs) ∧
          oracleCallCount evs = N) := by
  refine ⟨?_, ?_, ?_, ?_⟩
  · intro env p dom hskip hsettle hvision hdom hinf hroom
    rw [actStep_fresh_of_skip env p hskip hsettle]
    unfold actFresh
    simp only [hdom, hinf, hvision, downgradeVision_id]
    rw [if_pos hroom]
  · intro env p dom hskip hsettle hvision hdom hinf hroom huv hscroll
    refine ⟨?_, by decide⟩
    rw [actStep_fresh_of_skip env p hskip hsettle]
    unfold actFresh
    simp only [hdom, hinf, hvision, downgradeVision_id]
    rw [if_neg hroom, if_pos (by simpa using huv), hscroll]
  · intro env p dom hskip hsettle hvision hdom hinf hroom huv
    rw [actStep_fresh_of_skip env p hskip hsettle]
    unfold actFresh
    simp only [hdom, hinf, hvision, downgradeVision_id]
    rw [if_neg hroom, if_neg (by simpa using huv)]
  · intro env p N hcache hsettle hdomh hinfh hvision huv hseen hN
    exact c6_scan_run env N hcache hsettle hdomh hinfh N p hvision huv
      (by rw [hseen]; simp) hN

/-- A two-chunk document. -/
def domTwo : DomChunkResult := ⟨"1: first chunk", fun _ => [], 0, 2⟩

/-- A one-chunk document. -/
def domOne : DomChunkResult := ⟨"1: only chunk", fun _ => [], 0, 1⟩

/-- A scanning environment: no caching, the oracle never decides. -/
def envScan : Env :=
  { envFresh with
    enableCaching := false
    inference := (fun _ _ => .ok none)
    processDom := (fun _ => .ok domTwo) }

/-- `envScan` over a single chunk. -/
def envScan1 : Env := { envScan with processDom := (fun _ => .ok domOne) }

/-- `pSkip` in vision-fallback mode. -/
def pFB : ActParams := { pSkip with useVision := VisionMode.fallback }

theorem claim_C6_witness :
    (∃ evs, actIter envScan 2 pBase =
      some (⟨false, "Action was not able to be completed.", pBase.action⟩, evs) ∧
      oracleCallCount evs = 2) ∧
    actStep envScan1 pFB =
      (StepOutcome.recurse { pFB with useVision := VisionMode.on, retries := 0 },
       [.processDomCall pFB.chunksSeen, .oracleCall pFB.action pFB.steps, .scrollToTop]) := by
  constructor
  · exact claim_C6.2.2.2 envScan pBase 2 (by rfl) (by rfl)
      (fun seen => ⟨domTwo, by rfl, by rfl⟩) (fun a s => by rfl) (by rfl) (by rfl) (by rfl)
      (by decide)
  · exact (claim_C6.2.1 envScan1 pFB domOne (by rfl) (by rfl) (by rfl) (by rfl) (by rfl)
      (by decide) (by rfl) (by rfl)).1

/-! ## Claim C3 — fingerprint normalization -/

theorem serializeAttrs_append (xs ys : List (List Char × List Char)) :
    serializeAttrs (xs ++ ys) = serializeAttrs xs ++ serializeAttrs ys := by
  induction xs with
  | nil => rfl
  | cons a rest ih =>
    cases a with
    | mk n v => simp [serializeAttrs, ih]

theorem collapse_middle_ne (P v1 v2 S : List Char) (d : Char)
    (hP : wsState false P = false) (hd : ¬ d.isWhitespace)
    (hne : collapseWsAux false v1 ≠ collapseWsAux false v2) :
    collapseWs (P ++ (v1 ++ d :: S)) ≠ collapseWs (P ++ (v2 ++ d :: S)) := by
  have hsplit : ∀ v : List Char,
      collapseWsAux false (P ++ (v ++ d :: S)) =
        collapseWsAux false P ++ (collapseWsAux false v ++ d :: collapseWsAux false S) := by
    intro v
    rw [collapseWsAux_append, hP, collapseWsAux_append, collapseWsAux_cons_nonWs _ d S hd]
  intro h
  apply hne
  unfold collapseWs at h
  rw [hsplit v1, hsplit v2] at h
  have h2 := List.append_cancel_left h
  exact List.append_cancel_right h2

/-- Markup of the stripped element, split around one kept attribute value:
a prefix ending in the opening quote, the raw value, and the rest starting
with the closing quote. -/
theorem serializeElem_split_value (tag : List Char)
    (A B : List (List Char × List Char)) (children : List DomNode)
    (n v : List Char) (hn : attributesToKeep.contains n = true) :
    serializeElem (stripElementAttrs ⟨tag, A ++ [(n, v)] ++ B, children⟩) =
      ('<' :: (tag ++ (serializeAttrs (A.filter fun a => attributesToKeep.contains a.1) ++
        (' ' :: (n ++ ['=', '"'])))))
      ++ (v ++ '"' ::
        (serializeAttrs (B.filter fun a => attributesToKeep.contains a.1) ++ '>' ::
          ((serializeNodes children ++ '<' :: '/' :: tag) ++ ['>']))) := by
  have hnm : n ∈ attributesToKeep := by simpa using hn
  rw [serializeElem_eq]
  simp [stripElementAttrs, List.filter_append, hnm, serializeAttrs_append, serializeAttrs,
    List.append_assoc, List.cons_append]

/-- Claim C3, amended: the fingerprint computation is deterministic; markup
agreeing after whitespace-run collapse (the lengths of whitespace runs are
immaterial, though their presence is not) yields identical fingerprints;
elements differing only in a non-allow-listed attribute OF THE ELEMENT
ITSELF yield identical fingerprints (descendants' attributes are not
stripped); and elements differing in the value of an allow-listed own
attribute yield different fingerprints whenever the two values still differ
after whitespace-run collapse. -/
theorem claim_C3_amended :
    (∀ e : ElementNode, getComponentString e = getComponentString e) ∧
    (∀ e1 e2 : ElementNode,
        collapseWs (serializeElem (stripElementAttrs e1)) =
          collapseWs (serializeElem (stripElementAttrs e2)) →
        getComponentString e1 = getComponentString e2) ∧
    (∀ (tag : List Char) (attrs1 attrs2 : List (List Char × List Char))
        (children : List DomNode),
        attrs1.filter (fun a => attributesToKeep.contains a.1) =
          attrs2.filter (fun a => attributesToKeep.contains a.1) →
        getComponentString ⟨tag, attrs1, children⟩ =
          getComponentString ⟨tag, attrs2, children⟩) ∧
    (∀ (tag : List Char) (A B : List (List Char × List Char)) (children : List DomNode)
        (n v1 v2 : List Char),
        attributesToKeep.contains n = true →
        collapseWsAux false v1 ≠ collapseWsAux false v2 →
        getComponentString ⟨tag, A ++ [(n, v1)] ++ B, children⟩ ≠
          getComponentString ⟨tag, A ++ [(n, v2)] ++ B, children⟩) := by
  refine ⟨fun e => rfl, ?_, ?_, ?_⟩
  · intro e1 e2 h
    rw [getComponentString_eq_collapse, getComponentString_eq_collapse]
    exact h
  · intro tag attrs1 attrs2 children h
    unfold getComponentString stripElementAttrs
    simp only [h]
  · intro tag A B children n v1 v2 hn hne
    rw [getComponentString_eq_collapse, getComponentString_eq_collapse]
    rw [serializeElem_split_value tag A B children n v1 hn]
    rw [serializeElem_split_value tag A B children n v2 hn]
    apply collapse_middle_ne _ _ _ _ _ ?_ (by decide) hne
    rw [show ('<' :: (tag ++ (serializeAttrs (A.filter fun a => attributesToKeep.contains a.1)
        ++ (' ' :: (n ++ ['=', '"']))))) =
      ('<' :: (tag ++ (serializeAttrs (A.filter fun a => attributesToKeep.contains a.1)
        ++ (' ' :: (n ++ ['=']))))) ++ ['"'] by simp]
    exact wsState_concat_nonWs _ _ _ (by decide)

theorem claim_C3_counterexample :
    (deleteWs (serializeElem ⟨String.data "div", [], [.text (String.data "a")]⟩) =
       deleteWs (serializeElem ⟨String.data "div", [], [.text (String.data " a ")]⟩) ∧
     getComponentString ⟨String.data "div", [], [.text (String.data "a")]⟩ ≠
       getComponentString ⟨String.data "div", [], [.text (String.data " a ")]⟩) ∧
    (attributesToKeep.contains (String.data "class") = false ∧
     getComponentString ⟨String.data "div", [],
         [.elem (String.data "span") [(String.data "class", String.data "a")]
           [.text (String.data "x")]]⟩ ≠
       getComponentString ⟨String.data "div", [],
         [.elem (String.data "span") [(String.data "class", String.data "b")]
           [.text (String.data "x")]]⟩) ∧
    (attributesToKeep.contains (String.data "title") = true ∧
     String.data "a b" ≠ String.data "a  b" ∧
     getComponentString ⟨String.data "a", [(String.data "title", String.data "a b")], []⟩ =
       getComponentString ⟨String.data "a", [(String.data "title", String.data "a  b")], []⟩) := by
  refine ⟨⟨by decide, by decide⟩, ⟨by decide, by decide⟩, ⟨by decide, by decide, by decide⟩⟩

theorem claim_C3_witness :
    attributesToKeep.contains (String.data "title") = true ∧
    collapseWsAux false (String.data "x") ≠ collapseWsAux false (String.data "y") ∧
    getComponentString ⟨String.data "a",
        [] ++ [(String.data "title", String.data "x")] ++ [], []⟩ ≠
      getComponentString ⟨String.data "a",
        [] ++ [(String.data "title", String.data "y")] ++ [], []⟩ := by
  refine ⟨by decide, by decide, ?_⟩
  exact claim_C3_amended.2.2.2 (String.data "a") [] [] [] (String.data "title")
    (String.data "x") (String.data "y") (by decide) (by decide)
